import Mathlib

/-!
Verification of the buildcloth build-system core (`src/buildcloth/system.py`)
against its natural-language specification.

The embedding translates the Python source into Lean:

* Python exceptions become an explicit error type `PyErr` and fallible code
  returns `Except PyErr _`.  `PyErr.nameError` models a Python `NameError`
  (reference to an undefined global name), `PyErr.unboundLocalError` models
  `UnboundLocalError` (reading a local variable before assignment).
* Stage names and build targets are `String`s, as in the source.
* A stage's `run()` result is abstracted as a `Bool` (the stage classes live in
  `buildcloth/stages.py`, which is outside the core source under scrutiny; the
  `BuildSystem` methods only observe the boolean result).
-/

inductive PyErr where
  | invalidStage
  | invalidSystem
  | invalidJob
  | stageRunError
  | nameError
  | unboundLocalError
  | recursionLimit
  | invalidConfiguration
  deriving DecidableEq

/-- `BuildSystem._error_or_return` (system.py lines 221-247): raise the given
exception in strict mode, otherwise log and return `False`. -/
def error_or_return (strict : Bool) (exc : PyErr) : Except PyErr Bool :=
  if strict then .error exc else .ok false

/-- The `run_stages` selection logic of `BuildSystem.run_part` (system.py lines
338-364), mirroring the `elif` chain of the source in order.  `order` is
`self._stages` (the registered stage-name order); `stop`/`start` are the Python
`int` arguments, so they are `Int` here.  The result is either the propagated
exception, `.inl b` for an early `return self._error_or_return(...)` in
permissive mode, or `.inr stages` for the list of stage names selected to run.
Note that the final branch is the Python slice `self._stages[start:stop]`,
which excludes index `stop`. -/
def selectRunStages (order : List String) (stop start : Int) (runAll strict : Bool) :
    Except PyErr (Sum Bool (List String)) :=
  if runAll then .ok (.inr order)
  else if start > stop then (error_or_return strict .stageRunError).map .inl
  else if start < 0 ∨ stop < 0 then (error_or_return strict .stageRunError).map .inl
  else if order.length = 1 ∧ stop = 0 then .ok (.inr order)
  else if stop + 1 > (order.length : Int) then (error_or_return strict .stageRunError).map .inl
  else if start = 0 ∧ stop = 0 then .ok (.inr [order.getD 0 ""])
  else if start = stop then .ok (.inr [order.getD start.toNat ""])
  else .ok (.inr ((order.drop start.toNat).take (stop - start).toNat))

/-- The execution loop of `BuildSystem.run_part` (system.py lines 370-380).
`results` gives each stage's `run()` outcome.  The source keeps the last
result in `ret`; when a stage returns `False` it builds a log message with
`'job {0} failed...'.format(idx)` — but `idx` is not defined anywhere in
`run_part`, so Python raises `NameError` before `_error_or_return` is ever
reached.  The trailing `return ret` with no stage run also raises `NameError`
(`ret` unbound), modelled by the `none` accumulator case. -/
def runStagesLoop (results : String → Bool) : List String → Option Bool → Except PyErr Bool
  | [], ret =>
    match ret with
    | some r => .ok r
    | none => .error .nameError
  | j :: rest, _ =>
    if results j then runStagesLoop results rest (some true)
    else .error .nameError

/-- `BuildSystem.run_part` (system.py lines 313-380).  `isOpen` is
`self.open`; `strict` is the already-resolved strictness flag (the source
defaults a `None` argument to `self.strict` first).  The open-system check
(lines 366-368) runs after stage selection, as in the source. -/
def run_part (order : List String) (results : String → Bool) (isOpen : Bool)
    (stop start : Int) (runAll strict : Bool) : Except PyErr Bool :=
  match selectRunStages order stop start runAll strict with
  | .error e => .error e
  | .ok (.inl b) => .ok b
  | .ok (.inr runStages) =>
    if strict ∧ isOpen then .error .stageRunError
    else runStagesLoop results runStages none

/-- `BuildSystem.run` (system.py lines 382-396): `run_part(run_all=True)`. -/
def run (order : List String) (results : String → Bool) (isOpen strict : Bool) :
    Except PyErr Bool :=
  run_part order results isOpen 0 0 true strict

/-- Stage results used in the C4 evaluation: stage "a" fails, stage "b" succeeds. -/
def resultsAFails : String → Bool := fun s => s == "b"

/-- C4: For every closed BuildSystem and any strict setting, run() (and
run_part) executes stages in registration order, and when some stage's run()
returns False, no later stage is executed and the call reports that failure as
a boolean return value, never by raising an exception.

CODE BUG: in `run_part`, the failure branch first evaluates
`'job {0} failed, stopping and returning False'.format(idx)` where `idx` is
undefined, so a failing stage raises `NameError` in strict *and* permissive
mode instead of returning `False` (and even with `idx` defined, strict mode
would raise `StageRunError` via `_error_or_return`, contradicting the source's
own "returning False" message).  On the two-stage closed system where stage
"a" fails, `run` raises in both modes; when every stage succeeds it does
return the last stage's result. -/
theorem run_failing_stage_raises_nameerror :
    run ["a", "b"] resultsAFails false true = .error .nameError
    ∧ run ["a", "b"] resultsAFails false false = .error .nameError
    ∧ run ["a", "b"] (fun _ => true) false true = .ok true := by
  refine ⟨rfl, rfl, rfl⟩

/-- C5 counterexample: on a closed strict system with three stages, the claim
says `run_part` with `start = 0`, `stop = 1` executes stages 0 and 1
inclusive; the source's final branch is the Python slice
`self._stages[start:stop]`, which excludes `stop`, so only stage "s0" is
selected and stage "s1" is not executed. -/
theorem run_part_stop_not_inclusive :
    selectRunStages ["s0", "s1", "s2"] 1 0 false true = .ok (.inr ["s0"])
    ∧ ("s1" : String) ∉ ["s0"] := by
  exact ⟨rfl, by decide⟩

theorem selectRunStages_slice (order : List String) (start stop : Int)
    (h0 : 0 ≤ start) (hlt : start < stop) (hstop : stop < (order.length : Int)) :
    selectRunStages order stop start false true
      = .ok (.inr ((order.drop start.toNat).take (stop - start).toNat)) := by
  unfold selectRunStages
  rw [if_neg (by simp), if_neg (by omega), if_neg (by omega), if_neg (by omega),
    if_neg (by omega), if_neg (by omega), if_neg (by omega)]

theorem selectRunStages_violation (order : List String) (start stop : Int)
    (h : start > stop ∨ start < 0 ∨ stop < 0 ∨ (order.length : Int) ≤ stop) :
    selectRunStages order stop start false true = .error .stageRunError := by
  unfold selectRunStages
  rw [if_neg (by simp)]
  by_cases hgt : start > stop
  · rw [if_pos hgt]; rfl
  · rw [if_neg hgt]
    by_cases hneg : start < 0 ∨ stop < 0
    · rw [if_pos hneg]; rfl
    · rw [if_neg hneg, if_neg (by omega), if_pos (by omega)]; rfl

theorem runStagesLoop_all_ok_some (results : String → Bool) (L : List String)
    (h : ∀ s ∈ L, results s = true) :
    runStagesLoop results L (some true) = .ok true := by
  induction L with
  | nil => rfl
  | cons j rest ih =>
    have hj : results j = true := h j (by simp)
    simp only [runStagesLoop, hj, if_pos]
    exact ih (fun s hs => h s (by simp [hs]))

theorem runStagesLoop_all_ok (results : String → Bool) (L : List String)
    (hne : L ≠ []) (h : ∀ s ∈ L, results s = true) :
    runStagesLoop results L none = .ok true := by
  cases L with
  | nil => exact absurd rfl hne
  | cons j rest =>
    have hj : results j = true := h j (by simp)
    simp only [runStagesLoop, hj, if_pos]
    exact runStagesLoop_all_ok_some results rest (fun s hs => h s (by simp [hs]))

/-- C5 amended: for every closed BuildSystem with `n` stages, under the default
strict mode, `run_part` with `0 <= start < stop < n` selects exactly the stages
with indices `start` through `stop - 1` (the Python slice excludes `stop`), in
order; `start = stop` (within bounds) selects exactly stage `start`; when every
executed stage succeeds the call returns `true` (the last stage's result); and
when `start > stop`, either index is negative, or `stop` is out of bounds, it
fails with the range error (`StageRunError`) and executes no stage. -/
theorem run_part_range_semantics (order : List String) (results : String → Bool)
    (start stop : Int) :
    (0 ≤ start → start < stop → stop < (order.length : Int) →
      selectRunStages order stop start false true
        = .ok (.inr ((order.drop start.toNat).take (stop - start).toNat)))
    ∧ (0 ≤ start → start = stop → stop < (order.length : Int) →
      selectRunStages order stop start false true = .ok (.inr [order.getD start.toNat ""]))
    ∧ ((start > stop ∨ start < 0 ∨ stop < 0 ∨ (order.length : Int) ≤ stop) →
      run_part order results false stop start false true = .error .stageRunError)
    ∧ (0 ≤ start → start < stop → stop < (order.length : Int) →
      (∀ s ∈ (order.drop start.toNat).take (stop - start).toNat, results s = true) →
      run_part order results false stop start false true = .ok true) := by
  refine ⟨fun h0 hlt hstop => selectRunStages_slice order start stop h0 hlt hstop,
    ?_, ?_, ?_⟩
  · intro h0 heq hstop
    unfold selectRunStages
    rw [if_neg (by simp), if_neg (by omega), if_neg (by omega)]
    by_cases h14 : order.length = 1 ∧ stop = 0
    · rw [if_pos h14]
      obtain ⟨a, ha⟩ := List.length_eq_one.mp h14.1
      have hs0 : start = 0 := by omega
      rw [ha, hs0]
      rfl
    · rw [if_neg h14, if_neg (by omega)]
      by_cases h6 : start = 0 ∧ stop = 0
      · rw [if_pos h6, h6.1]
        rfl
      · rw [if_neg h6, if_pos heq]
  · intro h
    have hsel := selectRunStages_violation order start stop h
    unfold run_part
    rw [hsel]
  · intro h0 hlt hstop hall
    have hsel := selectRunStages_slice order start stop h0 hlt hstop
    unfold run_part
    rw [hsel]
    have hne : (order.drop start.toNat).take (stop - start).toNat ≠ [] := by
      have hlen : ((order.drop start.toNat).take (stop - start).toNat).length
          = min (stop - start).toNat (order.length - start.toNat) := by
        simp [List.length_take, List.length_drop]
      have : 0 < ((order.drop start.toNat).take (stop - start).toNat).length := by
        rw [hlen]; omega
      exact List.ne_nil_of_length_pos this
    simp only [if_neg (by simp : ¬(true = true ∧ false = true))]
    exact runStagesLoop_all_ok results _ hne hall

/-- C5 witness: the amended range semantics evaluated on a concrete three-stage
closed system with `start = 0`, `stop = 2`: stages "x" and "y" are selected
(stop excluded) and the run returns `true`. -/
theorem run_part_range_semantics_witness :
    selectRunStages ["x", "y", "z"] 2 0 false true = .ok (.inr ["x", "y"])
    ∧ run_part ["x", "y", "z"] (fun _ => true) false 2 0 false true = .ok true := by
  constructor
  · exact (run_part_range_semantics ["x", "y", "z"] (fun _ => true) 0 2).1
      (by decide) (by decide) (by decide)
  · exact (run_part_range_semantics ["x", "y", "z"] (fun _ => true) 0 2).2.2.2
      (by decide) (by decide) (by decide) (fun s _ => rfl)

/-- `BuildSystemGenerator._finalize_process_tree` together with
`_add_tasks_to_stage` (system.py lines 535-629), as a walk over the
topologically sorted target list `process`.  `tree` is the dependency map
`self._process_tree` (target to prerequisite list, totalized), `flag t` is the
stored RebuildDecision `self._process_jobs[t][1]`, `total = len(self._process)`,
`idx` the current index, `rn` the accumulated `rebuilds_needed` flag and
`stack` the pending task stack.  The result is the list of created stages in
creation order, each as (stage name, list of targets whose jobs were added).

Faithful details: the adjacency test of the source is
`if i not in self._process_tree[self._process[idx]]` where `self._process[idx]`
is the *current* target `i` itself, so the test checks whether `i` appears in
its own dependency list; a stage is flushed mid-walk only on such a
self-dependency, otherwise every pending task accumulates until the last index.
`_add_tasks_to_stage` with `rebuilds_needed` true creates a stage named after
the current task (`new_stage`, a parallel BuildStage) holding the whole stack,
or just the task itself when the stack is empty. -/
def finalize_process_tree (tree : String → List String) (flag : String → Bool)
    (total : Nat) : List String → Nat → Bool → List String → List (String × List String)
  | [], _, _, _ => []
  | i :: rest, idx, rn, stack =>
    if !rn && !flag i then
      finalize_process_tree tree flag total rest (idx + 1) rn stack
    else if idx + 1 = total then
      let stack2 := if stack.isEmpty then stack else stack ++ [i]
      let jobs := if stack2.isEmpty then [i] else stack2
      (i, jobs) :: finalize_process_tree tree flag total rest (idx + 1) true []
    else if i ∈ tree i then
      (i, stack ++ [i]) :: finalize_process_tree tree flag total rest (idx + 1) true []
    else
      finalize_process_tree tree flag total rest (idx + 1) true (stack ++ [i])

/-- Dependency map of the two-target chain used for C1: target "B" depends on
target "A"; "A" has no prerequisites. -/
def treeChainAB : String → List String := fun t => if t == "B" then ["A"] else []

/-- All RebuildDecisions true (every target stale). -/
def flagAllStale : String → Bool := fun _ => true

/-- C1: adjacent targets with no direct dependency edge are compacted into one
parallel stage, and a target that directly depends on the immediately
preceding target starts a new stage after it (a target is never placed in the
same parallel stage as a target it directly depends on).

CODE BUG: the adjacency check of `_finalize_process_tree` (system.py line 580)
is `if i not in self._process_tree[self._process[idx]]`, and `self._process[idx]`
is the current target `i` itself, not its neighbour in sort order — the
documented "combines adjacent tasks that do not depend upon each other" check
never happens.  On the sorted order ["A", "B"] with "B" directly depending on
"A" and both targets stale, the walk emits a single parallel stage named "B"
containing both "A" and "B", although "A" is in "B"'s direct dependency
list. -/
theorem finalize_merges_dependent_adjacent_targets :
    finalize_process_tree treeChainAB flagAllStale 2 ["A", "B"] 0 false []
      = [("B", ["A", "B"])]
    ∧ "A" ∈ treeChainAB "B" := by
  exact ⟨rfl, by decide⟩

theorem finalize_process_tree_step (tree : String → List String) (flag : String → Bool)
    (total : Nat) (i : String) (rest : List String) (idx : Nat) (stack : List String) :
    finalize_process_tree tree flag total (i :: rest) idx true stack
      = if idx + 1 = total then
          (i, if stack.isEmpty then [i] else stack ++ [i]) ::
            finalize_process_tree tree flag total rest (idx + 1) true []
        else if i ∈ tree i then
          (i, stack ++ [i]) :: finalize_process_tree tree flag total rest (idx + 1) true []
        else
          finalize_process_tree tree flag total rest (idx + 1) true (stack ++ [i]) := by
  rw [finalize_process_tree]
  cases stack with
  | nil => simp
  | cons a s => simp

theorem finalize_process_tree_skip (tree : String → List String) (flag : String → Bool)
    (total : Nat) (i : String) (rest : List String) (idx : Nat) (stack : List String)
    (hflag : flag i = false) :
    finalize_process_tree tree flag total (i :: rest) idx false stack
      = finalize_process_tree tree flag total rest (idx + 1) false stack := by
  rw [finalize_process_tree]
  simp [hflag]

theorem finalize_process_tree_flag_head (tree : String → List String)
    (flag : String → Bool) (total : Nat) (i : String) (rest : List String)
    (idx : Nat) (rn : Bool) (stack : List String) (hflag : flag i = true) :
    finalize_process_tree tree flag total (i :: rest) idx rn stack
      = finalize_process_tree tree flag total (i :: rest) idx true stack := by
  cases rn with
  | true => rfl
  | false =>
    rw [finalize_process_tree]
    conv_rhs => rw [finalize_process_tree]
    simp [hflag]

theorem finalize_process_tree_jobs_rn (tree : String → List String)
    (flag : String → Bool) (total : Nat) (rest : List String) :
    ∀ idx stack, rest ≠ [] → idx + rest.length = total →
    ((finalize_process_tree tree flag total rest idx true stack).flatMap
        (fun st => st.2))
      = stack ++ rest := by
  induction rest with
  | nil => intro idx stack hne _; exact absurd rfl hne
  | cons i rest ih =>
    intro idx stack _ hlen
    rw [finalize_process_tree_step]
    cases rest with
    | nil =>
      have hidx : idx + 1 = total := by simpa using hlen
      rw [if_pos hidx]
      cases stack with
      | nil => simp [finalize_process_tree]
      | cons a s => simp [finalize_process_tree]
    | cons j rest' =>
      have hidx : ¬(idx + 1 = total) := by
        simp only [List.length_cons] at hlen; omega
      have hlen' : (idx + 1) + (j :: rest').length = total := by
        simp only [List.length_cons] at hlen ⊢; omega
      rw [if_neg hidx]
      by_cases hmem : i ∈ tree i
      · rw [if_pos hmem]
        simp only [List.flatMap_cons]
        rw [ih (idx + 1) [] (by simp) hlen']
        simp
      · rw [if_neg hmem]
        rw [ih (idx + 1) (stack ++ [i]) (by simp) hlen']
        simp

theorem finalize_process_tree_jobs_main (tree : String → List String)
    (flag : String → Bool) (total : Nat) (rest : List String) :
    ∀ idx, idx + rest.length = total →
    ((finalize_process_tree tree flag total rest idx false []).flatMap
        (fun st => st.2))
      = rest.dropWhile (fun t => !flag t) := by
  induction rest with
  | nil => intro idx _; rfl
  | cons i rest ih =>
    intro idx hlen
    cases hflag : flag i with
    | false =>
      rw [finalize_process_tree_skip _ _ _ _ _ _ _ hflag]
      rw [ih (idx + 1) (by simp only [List.length_cons] at hlen ⊢; omega)]
      simp [List.dropWhile_cons, hflag]
    | true =>
      rw [finalize_process_tree_flag_head _ _ _ _ _ _ _ _ hflag]
      rw [finalize_process_tree_jobs_rn tree flag total (i :: rest) idx [] (by simp) hlen]
      simp [List.dropWhile_cons, hflag]

theorem finalize_process_tree_name_mem (tree : String → List String)
    (flag : String → Bool) (total : Nat) (rest : List String) :
    ∀ idx rn stack st, st ∈ finalize_process_tree tree flag total rest idx rn stack →
      st.1 ∈ st.2 := by
  induction rest with
  | nil =>
    intro idx rn stack st h
    rw [finalize_process_tree] at h
    simp at h
  | cons i rest ih =>
    intro idx rn stack st h
    have hmain : ∀ stack2,
        st ∈ finalize_process_tree tree flag total (i :: rest) idx true stack2 →
        st.1 ∈ st.2 := by
      intro stack2 h2
      rw [finalize_process_tree_step] at h2
      split at h2
      · rcases List.mem_cons.mp h2 with heq | htail
        · subst heq
          by_cases hs : stack2.isEmpty
          · simp [hs]
          · simp [hs]
        · exact ih _ _ _ _ htail
      · split at h2
        · rcases List.mem_cons.mp h2 with heq | htail
          · subst heq; simp
          · exact ih _ _ _ _ htail
        · exact ih _ _ _ _ h2
    cases rn with
    | true => exact hmain stack h
    | false =>
      cases hflag : flag i with
      | false =>
        rw [finalize_process_tree_skip _ _ _ _ _ _ _ hflag] at h
        exact ih _ _ _ _ h
      | true =>
        rw [finalize_process_tree_flag_head _ _ _ _ _ _ _ _ hflag] at h
        exact hmain stack h

/-- C2: during finalize's left-to-right walk of the topologically sorted
targets, the needs-rebuild flag starts false and becomes permanently true at
the first target whose own RebuildDecision is true: every target before that
point is dropped from the schedule (it appears in no stage's job list, and
every created stage is named after one of its own jobs, so no dropped target
is materialized as a stage), and every target from that point onward —
including targets whose own RebuildDecision is false — is included in the
compiled schedule.  Formally: the concatenated job lists of the created stages
are exactly `process.dropWhile (fun t => !flag t)`, in order. -/
theorem finalize_rebuild_flag_propagation (process : List String)
    (tree : String → List String) (flag : String → Bool) :
    ((finalize_process_tree tree flag process.length process 0 false []).flatMap
        (fun st => st.2))
      = process.dropWhile (fun t => !flag t)
    ∧ ∀ st ∈ finalize_process_tree tree flag process.length process 0 false [],
        st.1 ∈ st.2 := by
  constructor
  · exact finalize_process_tree_jobs_main tree flag process.length process 0 (by simp)
  · intro st h
    exact finalize_process_tree_name_mem tree flag process.length process 0 false [] st h

/-- Dependency map for the spec's propagation example: "B" depends on "A",
"C" depends on "B". -/
def treeChainABC : String → List String :=
  fun t => if t == "B" then ["A"] else if t == "C" then ["B"] else []

/-- RebuildDecision for the spec's propagation example: only "A" is stale. -/
def flagOnlyA : String → Bool := fun t => t == "A"

/-- C2 witness: order [A, B, C] with B depending on A and C depending on B,
only A stale — the compiled schedule's job lists cover exactly A, B and C, the
propagation example of the spec. -/
theorem finalize_rebuild_flag_propagation_witness :
    ((finalize_process_tree treeChainABC flagOnlyA 3 ["A", "B", "C"] 0 false []).flatMap
        (fun st => st.2))
      = ["A", "B", "C"] :=
  (finalize_rebuild_flag_propagation ["A", "B", "C"] treeChainABC flagOnlyA).1

/-- Lookup in the association-list dependency map `self._process_tree`,
totalized to `[]` for missing keys. -/
def lookupTree (tree : List (String × List String)) (t : String) : List String :=
  match tree.find? (fun p => p.1 == t) with
  | some p => p.2
  | none => []

/-- Modelled from the spec: `tsort` is imported from `buildcloth/tsort.py`,
which is absent from src/.  The spec says finalize "topologically sort[s] the
dependency map (Kahn/DFS-based sort; ties among targets with no ordering
constraint between them are broken by original ingestion order, to keep builds
deterministic)".  Node order here: map keys in ingestion order followed by
dependency-only names in first-appearance order. -/
def tsortNodes (tree : List (String × List String)) : List String :=
  let keys := tree.map (fun p => p.1)
  keys ++ ((tree.flatMap (fun p => p.2)).filter (fun d => decide (d ∉ keys))).eraseDups

/-- Modelled from the spec: Kahn step of the topological sort — repeatedly
emit the first pending node all of whose prerequisites have already been
emitted; if no pending node qualifies, the map is cyclic and the sort fails.
`fuel` starts at the node count and bounds the recursion. -/
def tsortGo (tree : List (String × List String)) :
    Nat → List String → Except PyErr (List String)
  | _, [] => .ok []
  | 0, _ :: _ => .error .invalidSystem
  | fuel + 1, pending =>
    match pending.find?
        (fun t => (lookupTree tree t).all (fun d => decide (d ∉ pending))) with
    | none => .error .invalidSystem
    | some t =>
      match tsortGo tree fuel (pending.erase t) with
      | .error e => .error e
      | .ok rest => .ok (t :: rest)

/-- Modelled from the spec: the topological sort used by finalize. -/
def tsort (tree : List (String × List String)) : Except PyErr (List String) :=
  tsortGo tree (tsortNodes tree).length (tsortNodes tree)

/-- `BuildSystemGenerator.finalize` (system.py lines 487-533), projected onto
the stage-name order of the finalized system, on a first call (`self._final`
is False and `self.system` is None).  `freeOrder` is the stage order of the
free-task system `self._stages` built during ingest.  With an empty dependency
map, the free-task system itself becomes the result (InvalidSystem when it has
no stages).  Otherwise the result is `BuildSystem(self._stages)` — whose
constructor `extend`s the free-task stage order FIRST — then
`_finalize_process_tree` appends the dependency-derived stages, and then
`if self._stages.count() > 0: self.system.extend(self._stages)` appends the
free-task stage order a second time. -/
def finalize (freeOrder : List String) (tree : List (String × List String))
    (flag : String → Bool) : Except PyErr (List String) :=
  if tree.isEmpty then
    if 0 < freeOrder.length then .ok freeOrder else .error .invalidSystem
  else
    match tsort tree with
    | .error e => .error e
    | .ok process =>
      let depStages := finalize_process_tree (lookupTree tree) flag
        process.length process 0 false []
      .ok (freeOrder ++ depStages.map (fun st => st.1)
        ++ (if 0 < freeOrder.length then freeOrder else []))

/-- C3: free-task stages appear in the finalized stage order only after all
dependency-derived stages, in their own ingestion order, and each free-task
stage appears exactly once.

CODE BUG: `finalize` builds the result as `BuildSystem(self._stages)`, whose
constructor already copies the free-task stage order, and then — after adding
the dependency-derived stages — extends with `self._stages` a second time.
With one free-task stage "f" and the one-target stale dependency map
{"A": []}, the finalized stage order is ["f", "A", "f"]: the free stage
appears twice, and its first occurrence precedes the dependency-derived stage,
contradicting both the claim and finalize's own docstring ("orders the tasks
with dependencies ... before inserting the _stages tasks"); a duplicated name
in `_stages` also makes `run()` execute that stage twice. -/
theorem finalize_free_stages_duplicated :
    finalize ["f"] [("A", [])] (fun _ => true) = .ok ["f", "A", "f"]
    ∧ (["f", "A", "f"].count "f" = 2 ∧ ["f", "A", "f"].take 1 = ["f"]) := by
  exact ⟨rfl, by decide, by decide⟩

theorem finalize_process_tree_no_stale (tree : String → List String)
    (flag : String → Bool) (total : Nat) (rest : List String)
    (hflag : ∀ t, flag t = false) :
    ∀ idx stack, finalize_process_tree tree flag total rest idx false stack = [] := by
  induction rest with
  | nil => intro idx stack; rfl
  | cons i rest ih =>
    intro idx stack
    rw [finalize_process_tree_skip _ _ _ _ _ _ _ (hflag i)]
    exact ih _ _

/-- C6 counterexample: with the non-empty dependency map {"A": []}, no
free-task stages and every RebuildDecision false, the claim says finalize
fails with EmptySystem (InvalidSystem); the source raises nothing on this
path — it closes and returns an empty system. -/
theorem finalize_no_stale_does_not_error :
    finalize [] [("A", [])] (fun _ => false) ≠ .error .invalidSystem := by
  intro h
  have h0 : finalize [] [("A", [])] (fun _ => false) = .ok [] := rfl
  rw [h0] at h
  exact Except.noConfusion h

/-- C6 amended: if the dependency map is non-empty (and topologically
sortable), there are no free-task stages, and every target's RebuildDecision
is false, finalize succeeds and produces an empty schedule (a closed system
with zero stages) rather than failing; if the dependency map is empty, the
finalized system is exactly the free-task stages, and finalize fails with
EmptySystem (InvalidSystem) when there are none of those either. -/
theorem finalize_empty_cases (freeOrder : List String)
    (tree : List (String × List String)) (flag : String → Bool)
    (process : List String) :
    (tree ≠ [] → freeOrder = [] → (∀ t, flag t = false) →
      tsort tree = .ok process → finalize freeOrder tree flag = .ok [])
    ∧ (tree = [] → finalize freeOrder tree flag
        = if 0 < freeOrder.length then .ok freeOrder else .error .invalidSystem) := by
  constructor
  · intro hne hfree hflag hsort
    simp only [finalize, hsort]
    rw [if_neg (by simp [hne])]
    rw [finalize_process_tree_no_stale (lookupTree tree) flag process.length process hflag 0 []]
    simp [hfree]
  · intro h
    subst h
    rfl

/-- C6 witness: the amended statement evaluated at the dependency map
{"A": []} with "A" up to date (empty successful result), and at the fully
empty generator (InvalidSystem). -/
theorem finalize_empty_cases_witness :
    finalize [] [("A", [])] (fun _ => false) = .ok []
    ∧ finalize [] [] (fun _ => false) = .error .invalidSystem := by
  constructor
  · exact (finalize_empty_cases [] [("A", [])] (fun _ => false) ["A"]).1
      (by simp) rfl (fun t => rfl) rfl
  · exact (finalize_empty_cases [] [] (fun _ => false) []).2 rfl

/-- The two `BuildSteps` stage variants (from `buildcloth/stages.py`, outside
src/): `BuildStage` is the parallel variant, `BuildSequence` the sequential
one.  `add_stage` only needs the variant tag and the isinstance test, which
any of these values passes. -/
inductive BuildSteps where
  | buildStage
  | buildSequence
  deriving DecidableEq

/-- `BuildSystem` registration state: `order` is `self._stages` (the ordered
stage-name list), `stageMap` models the dict `self.stages`, plus the open and
strictness flags. -/
structure BSys where
  order : List String
  stageMap : List (String × BuildSteps)
  isOpen : Bool
  strict : Bool
  deriving DecidableEq

/-- Python dict assignment `self.stages[name] = stage`: overwrite when the
key exists, append otherwise. -/
def dictInsert (m : List (String × BuildSteps)) (k : String) (v : BuildSteps) :
    List (String × BuildSteps) :=
  if m.any (fun p => p.1 == k) then
    m.map (fun p => if p.1 == k then (k, v) else p)
  else m ++ [(k, v)]

/-- `BuildSystem.add_stage` (system.py lines 151-219).  Returns the updated
system and the Python return value: `some true` for the explicit
`return True`, `none` for the implicit `None` when the malformed-stage branch
falls through in permissive mode (the source discards the result of
`self._error_or_return` there).  Faithful details: the method never calls
`_validate_stage`, never tests `name in self.stages`, and never checks
`self.open` — a well-formed stage is always appended to `self._stages` and
stored into the dict, duplicate names included. -/
def add_stage (bs : BSys) (name : String) (stage : Option BuildSteps)
    (stageType : String) (strictArg : Option Bool) :
    Except PyErr (BSys × Option Bool) :=
  let strict := strictArg.getD bs.strict
  let stage1 : Except PyErr (Option BuildSteps) :=
    match stage with
    | some s => .ok (some s)
    | none =>
      if stageType == "stage" then .ok (some .buildStage)
      else if stageType == "seq" || stageType == "sequence" then .ok (some .buildSequence)
      else if strict then .error .invalidStage else .ok none
  match stage1 with
  | .error e => .error e
  | .ok none => if strict then .error .invalidStage else .ok (bs, none)
  | .ok (some s) =>
    .ok (BSys.mk (bs.order ++ [name]) (dictInsert bs.stageMap name s) bs.isOpen bs.strict,
      some true)

/-- `BuildSystem.extend` (system.py lines 132-149): `self.stages.update(...)`
over the incoming mapping, then every incoming stage name is appended to
`self._stages`, collisions included. -/
def extend (bs other : BSys) : BSys :=
  BSys.mk (bs.order ++ other.order)
    (other.stageMap.foldl (fun m p => dictInsert m p.1 p.2) bs.stageMap)
    bs.isOpen bs.strict

/-- `BuildSystem()`  with no initial system: empty, open, strict. -/
def emptyBSys : BSys := BSys.mk [] [] true true

/-- Adding stage "a" twice (via the `new_stage` path: no stage object, default
parallel stage type, default strictness) to a fresh strict system. -/
def twoAdds : Except PyErr (BSys × Option Bool) :=
  match add_stage emptyBSys "a" none "stage" none with
  | .error e => .error e
  | .ok (b1, _) => add_stage b1 "a" none "stage" none

/-- A one-stage system, as produced by the first of the two adds. -/
def singleA : BSys := BSys.mk ["a"] [("a", .buildStage)] true true

/-- C7: BuildSystem operations preserve uniqueness of stage names in the
ordered list and agreement between the list and the mapping; add_stage on an
existing name fails with DuplicateStage in strict mode (false indicator in
non-strict mode), and extend preserves the invariant on collisions.

CODE BUG: `add_stage` never performs a duplicate check (the helper
`_validate_stage` exists but is never called), contradicting its own
docstring ("When ``strict`` is ``True``, prevents callers from adding
duplicate stages").  Adding "a" twice in strict mode raises nothing and
returns True both times, leaving `_stages = ["a", "a"]` (the name duplicated
in the ordered list) while the dict holds a single entry; `extend` with a
colliding system likewise duplicates the name in the ordered list. -/
theorem add_stage_duplicate_accepted :
    twoAdds = .ok (BSys.mk ["a", "a"] [("a", .buildStage)] true true, some true)
    ∧ ["a", "a"].count "a" = 2 ∧ [("a", BuildSteps.buildStage)].length = 1
    ∧ (extend singleA singleA).order = ["a", "a"]
    ∧ (extend singleA singleA).stageMap = [("a", .buildStage)] := by
  refine ⟨rfl, by decide, rfl, rfl, rfl⟩

/-- The recursive `resolve` closure of `narrow_buildsystem` (system.py lines
1031-1044), with the shared mutable `targets` set threaded explicitly (a list
preserving insertion order; only membership matters).  The closure reads and
assigns `safety`, a variable of the enclosing function, without any `nonlocal`
declaration, so Python treats `safety` as a local of `resolve` and the very
first `safety += 1` — reached exactly when a traversed prerequisite `i` is
already in `targets` — raises `UnboundLocalError` (so the `safety >=
len(bs._process_tree)` guard and its `raise TargetError` are dead code; and
`TargetError` is not even imported in system.py).  `fuel` is a modelling
artifact bounding recursion depth in the embedding; each tree descent adds a
fresh name to `targets`, so any fuel beyond the number of reachable names
makes the embedding exhaustive. -/
def resolve (tree : String → List String) : Nat → List String → List String →
    Except PyErr (List String)
  | _, targets, [] => .ok targets
  | 0, _, _ :: _ => .error .recursionLimit
  | fuel + 1, targets, i :: rest =>
    if i ∈ targets then .error .unboundLocalError
    else
      match resolve tree fuel (targets ++ [i]) (tree i) with
      | .error e => .error e
      | .ok t2 => resolve tree fuel t2 rest

/-- `narrow_buildsystem(target, bs)` up to the dependency-closure phase for a
single requested target that exists in the map: `targets = {target}` and then
`resolve(bs._process_tree[target], target)`. -/
def narrow_resolve (tree : String → List String) (fuel : Nat) (t : String) :
    Except PyErr (List String) :=
  resolve tree fuel [t] (tree t)

/-- The two-target cycle: "A" depends on "B" and "B" depends on "A". -/
def treeCycleAB : String → List String :=
  fun t => if t == "A" then ["B"] else if t == "B" then ["A"] else []

/-- C8: narrowing a target whose prerequisite closure contains a cycle fails
with CyclicDependency, with total visits bounded by the map size, and never
produces a narrowed schedule.

CODE BUG: on the cycle {"A": ["B"], "B": ["A"]}, `narrow_buildsystem("A", bs)`
does terminate without a schedule, but with `UnboundLocalError` — the
`safety += 1` cycle guard inside `resolve` assigns a closure variable without
`nonlocal`, so the intended counter (and its `raise TargetError`, a name that
is itself not imported in system.py) is never reached and no CyclicDependency
style error is raised. -/
theorem narrow_cycle_raises_unboundlocal :
    narrow_resolve treeCycleAB 8 "A" = .error .unboundLocalError := by
  rfl

/-- The spec-relevant fields of an ingested job spec, for
`_process_job` classification: the optional `target` and `stage` keys, and
`deps = some l` when any of the `dependency`/`dep`/`deps` keys is present
(with `l` the normalized prerequisite list per `get_dependency_list`). -/
structure JobSpecFields where
  target : Option String
  stage : Option String
  deps : Option (List String)
  deriving DecidableEq

/-- How `_process_job` disposes of a spec: a graph task recorded into the
dependency map (`_process_dependency`), a dependency-free task appended to
the free-task stage of the given name, or the implicit `return None` when a
dependency-bearing spec has neither target nor stage. -/
inductive Classified where
  | graph (target : String) (deps : List String)
  | free (stageName : String)
  | noop
  deriving DecidableEq

/-- `BuildSystemGenerator._process_job` (system.py lines 969-1012) together
with `_process_dependency` (lines 944-967), projected onto the classification
of the spec.  The branch on the presence of a dependency key comes first: only
dependency-bearing specs can reach `_process_dependency` (and a
dependency-bearing spec naming a stage has the stage renamed to a target); a
spec with *no* dependency key has its `target`, if any, renamed to `stage`
and is appended as a free task (under "__unspecified" when it names
neither). -/
def process_job (s : JobSpecFields) : Except PyErr Classified :=
  match s.deps with
  | some ds =>
    if s.stage.isSome && s.target.isSome then .error .invalidJob
    else
      let t := if s.stage.isSome && !s.target.isSome then s.stage else s.target
      match t with
      | some target => .ok (.graph target ds)
      | none => .ok .noop
  | none =>
    let st := if s.target.isSome && !s.stage.isSome then s.target else s.stage
    .ok (.free (st.getD "__unspecified"))

/-- C9 counterexample: the spec {target: "t"} with no dependency field is, per
the claim, recorded in the dependency map with an empty prerequisite list; the
source instead renames the target to a stage name and appends it as a
dependency-free task — it never reaches `_process_dependency`. -/
theorem target_without_dependency_not_in_graph :
    process_job (JobSpecFields.mk (some "t") none none) = .ok (.free "t")
    ∧ process_job (JobSpecFields.mk (some "t") none none) ≠ .ok (.graph "t" []) := by
  refine ⟨rfl, ?_⟩
  intro h
  have h0 : process_job (JobSpecFields.mk (some "t") none none) = .ok (.free "t") := rfl
  rw [h0] at h
  injection h with h2
  exact Classified.noConfusion h2

/-- C9 amended: a spec that declares a dependency field and a target (or a
stage name, which is renamed to a target) is recorded in the dependency map
with its declared prerequisite list; a spec that declares a target but no
dependency field is converted into a dependency-free task whose stage name is
the target; specs that declare a stage name (or nothing, falling back to
"__unspecified") and no dependency field become dependency-free tasks; and a
spec declaring both target and stage together with a dependency field fails
with InvalidJob. -/
theorem process_job_classification (t st : String) (ds : List String) :
    process_job (JobSpecFields.mk (some t) none (some ds)) = .ok (.graph t ds)
    ∧ process_job (JobSpecFields.mk none (some st) (some ds)) = .ok (.graph st ds)
    ∧ process_job (JobSpecFields.mk (some t) none none) = .ok (.free t)
    ∧ process_job (JobSpecFields.mk none (some st) none) = .ok (.free st)
    ∧ process_job (JobSpecFields.mk none none none) = .ok (.free "__unspecified")
    ∧ process_job (JobSpecFields.mk (some t) (some st) (some ds)) = .error .invalidJob := by
  refine ⟨rfl, rfl, rfl, rfl, rfl, rfl⟩

/-- Modelled from the spec: the valid check modes of `DependencyChecks`
(`buildcloth/dependency.py`, absent from src/) — "a single enumerated setting
{mtime, force, ignore}" exposed as `self.check.checks`. -/
def dependencyCheckModes : List String := ["mtime", "force", "ignore"]

/-- The `check_method` property setter of `BuildSystemGenerator` (system.py
lines 480-485): `if value not in self.check.checks: pass else:
self.check.check_method = value` — given the current mode and the assigned
value, it returns the resulting mode and never raises. -/
def check_method_set (current value : String) : Except PyErr String :=
  if value ∉ dependencyCheckModes then .ok current
  else .ok value

/-- C10 counterexample: assigning the invalid mode "bogus" is, per the claim,
an immediate InvalidConfiguration failure; the source's setter hits the
`pass` branch — the assignment is silently ignored, the previous mode "mtime"
stays configured and no error is raised. -/
theorem check_method_invalid_not_rejected :
    check_method_set "mtime" "bogus" = .ok "mtime"
    ∧ check_method_set "mtime" "bogus" ≠ .error .invalidConfiguration := by
  refine ⟨rfl, ?_⟩
  intro h
  have h0 : check_method_set "mtime" "bogus" = .ok "mtime" := rfl
  rw [h0] at h
  exact Except.noConfusion h

/-- C10 amended: assigning a value outside {mtime, force, ignore} to the
compiler's check mode is silently ignored — the setter returns without error
and the previously configured mode remains in effect (so no decision is ever
taken under an unknown mode, but no InvalidConfiguration error is raised
either); a valid value is stored. -/
theorem check_method_set_semantics (current value : String) :
    (value ∉ dependencyCheckModes → check_method_set current value = .ok current)
    ∧ (value ∈ dependencyCheckModes → check_method_set current value = .ok value) := by
  constructor
  · intro h
    simp [check_method_set, h]
  · intro h
    simp [check_method_set, h]

/-- C10 witness: the invalid mode "bogus" leaves "mtime" configured; the valid
mode "force" is stored. -/
theorem check_method_set_semantics_witness :
    check_method_set "mtime" "bogus" = .ok "mtime"
    ∧ check_method_set "mtime" "force" = .ok "force" := by
  constructor
  · exact (check_method_set_semantics "mtime" "bogus").1 (by decide)
  · exact (check_method_set_semantics "mtime" "force").2 (by decide)
